import Mathlib

/-!
Verification of the batch WebP conversion engine.

Shallow embedding of the repository's core components:
* `encode` / `encodeTr` — the encoder adapter (`src/webp_wrapper.rs`, `encode`),
  over an oracle environment describing the foreign calls
  (`WebPValidateConfig`, `WebPEncode`, the memory writer).
* `generate_config` — configuration construction (`src/image_processing.rs`).
* `convert_file` — per-file conversion and fallback policy
  (`src/image_processing.rs`, `convert_file`).
* `convert_file_all` — parallel map/reduce aggregation
  (`src/image_processing.rs`, `convert_file_all`).
* `Paths.flatten_dir` — bounded-depth directory flattening
  (`src/file_utils.rs`, `flatten_dir`).

Filesystem and foreign-encoder effects are modelled by explicit oracle
fields; machine integers (`u8`, `u16`, `u64`) are modelled as `Nat`
(the relevant code never relies on wraparound) and `i32` as `Int`.
-/

namespace Webp

/-! ### Encoder adapter (src/webp_wrapper.rs) -/

/-- The `WebPEncodingError` enum of `libwebp_sys` (values of `picture.error_code`). -/
inductive WebPEncodingError where
  | VP8_ENC_OK
  | VP8_ENC_ERROR_OUT_OF_MEMORY
  | VP8_ENC_ERROR_BITSTREAM_OUT_OF_MEMORY
  | VP8_ENC_ERROR_NULL_PARAMETER
  | VP8_ENC_ERROR_INVALID_CONFIGURATION
  | VP8_ENC_ERROR_BAD_DIMENSION
  | VP8_ENC_ERROR_PARTITION0_OVERFLOW
  | VP8_ENC_ERROR_PARTITION_OVERFLOW
  | VP8_ENC_ERROR_BAD_WRITE
  | VP8_ENC_ERROR_FILE_TOO_BIG
  | VP8_ENC_ERROR_USER_ABORT
deriving DecidableEq, Repr

/-- `WebPMemory(ptr, size)`: the owned foreign buffer, modelled by the byte
sequence it denotes (`ptr` + `size` stand for `data`). -/
structure WebPMemory where
  data : List Nat
deriving DecidableEq, Repr

/-- `VP8StatusCode::VP8_STATUS_OK as i32` (the enum's first value, `0`). -/
def VP8_STATUS_OK : Int := 0

/-- Oracle environment for one call of `encode` in `src/webp_wrapper.rs`:
the outcomes of the foreign calls it makes.
`validateConfig` is `WebPValidateConfig(config) != 0`; `encodeStatus` is the
`i32` returned by `WebPEncode`; `writerMem` is the content of the memory
writer after the call; `pictureErrorCode` is `picture.error_code`. -/
structure EncodeEnv where
  validateConfig : Bool
  encodeStatus : Int
  writerMem : List Nat
  pictureErrorCode : WebPEncodingError
deriving DecidableEq, Repr

/-- Observable effects of `encode`: the `WebPValidateConfig` call, the
`WebPMemoryWriterInit` buffer acquisition, and the `WebPEncode` call. -/
inductive EncodeEffect where
  | validateCall
  | writerInit
  | encodeCall
deriving DecidableEq, Repr

/-- `encode` from `src/webp_wrapper.rs` lines 56-75, instrumented with the
list of effects it performs, in order:
validation first; on rejection return `VP8_ENC_ERROR_INVALID_CONFIGURATION`
at once; otherwise initialise the memory writer, call `WebPEncode`, and
return `Ok(mem)` when `status != VP8_STATUS_OK as i32`, else
`Err(picture.error_code)`. -/
def encodeTr (env : EncodeEnv) :
    Except WebPEncodingError WebPMemory × List EncodeEffect :=
  if env.validateConfig = false then
    (Except.error WebPEncodingError.VP8_ENC_ERROR_INVALID_CONFIGURATION,
      [EncodeEffect.validateCall])
  else
    let effects := [EncodeEffect.validateCall, EncodeEffect.writerInit,
      EncodeEffect.encodeCall]
    if env.encodeStatus ≠ VP8_STATUS_OK then
      (Except.ok ⟨env.writerMem⟩, effects)
    else
      (Except.error env.pictureErrorCode, effects)

/-- The result of `encode` (the effect trace projected away). -/
def encode (env : EncodeEnv) : Except WebPEncodingError WebPMemory :=
  (encodeTr env).1

/-! ### Configuration construction (src/image_processing.rs, generate_config) -/

/-- The CLI options consumed by `generate_config` (`src/args.rs`):
`quality`, `lossless`, `method` are `u8`, modelled as `Nat`. -/
structure Cli where
  quality : Nat
  lossless : Nat
  method : Nat
deriving DecidableEq, Repr

/-- The fields of `WebPConfig` that `generate_config` sets. `lossless`,
`method`, `thread_level` are `i32`; `quality` is `f32` but only ever holds
`args.quality as f32` with `args.quality : u8`, an exact conversion, so it
is modelled as `Nat`. -/
structure WebPConfig where
  lossless : Int
  quality : Nat
  method : Int
  thread_level : Int
deriving DecidableEq, Repr

/-- `generate_config` from `src/image_processing.rs` lines 9-22. -/
def generate_config (args : Cli) : WebPConfig :=
  ⟨if args.quality == 100 then (args.lossless : Int) else 0,
    args.quality, (args.method : Int), 1⟩

/-! ### Per-file conversion (src/image_processing.rs, convert_file) -/

/-- A decoded image (`DynamicImage`), reduced to what `convert_file` uses of
it: `pixelBytes` is `img.into_bytes()`, the raw decoded pixel bytes. -/
structure Image where
  pixelBytes : List Nat
deriving DecidableEq, Repr

instance {ε α : Type} [DecidableEq ε] [DecidableEq α] :
    DecidableEq (Except ε α) := fun x y =>
  match x, y with
  | Except.ok a, Except.ok b =>
    if h : a = b then isTrue (by rw [h])
    else isFalse (by intro hc; cases hc; exact h rfl)
  | Except.ok _, Except.error _ => isFalse (by intro hc; cases hc)
  | Except.error _, Except.ok _ => isFalse (by intro hc; cases hc)
  | Except.error a, Except.error b =>
    if h : a = b then isTrue (by rw [h])
    else isFalse (by intro hc; cases hc; exact h rfl)

/-- Oracle environment for one call of `convert_file`: the outcomes of its
filesystem and codec interactions.
`fileStem` is `input.file_stem()`; `decoded` is `open_image_from_path(input)`;
`encodeResult` is `image_to_webp(img, config)`; `outputExists` is
`output.exists()`; `createDirOk` is whether the `fs::create_dir_all` call in
the not-exists branch succeeds; `inputSize` is `input.metadata().unwrap().len()`
(the unwrap modelled as succeeding). -/
structure ConvertEnv where
  fileStem : Option String
  decoded : Option Image
  encodeResult : Except WebPEncodingError WebPMemory
  outputExists : Bool
  createDirOk : Bool
  inputSize : Nat
deriving DecidableEq, Repr

/-- `convert_file` from `src/image_processing.rs` lines 63-119. The returned
pair instruments the `fs::write` effect: first component the bytes written to
the output path, second component the returned `output_size`. Error strings
abbreviate the source's formatted messages. -/
def convert_file (env : ConvertEnv) (use_initial_if_smaller : Nat) :
    Except String (List Nat × Nat) :=
  match env.fileStem with
  | none => Except.error "The file name does not exist!"
  | some _ =>
    match env.decoded with
    | none => Except.error "is not an image"
    | some img =>
      match env.encodeResult with
      | Except.error _ => Except.error "Failed to convert image"
      | Except.ok webp =>
        if env.outputExists = false ∧ env.createDirOk = false then
          Except.error "create_dir_all failed"
        else
          let input_size := env.inputSize
          let output_size := webp.data.length
          if use_initial_if_smaller == 1 ∧ input_size < output_size then
            Except.ok (img.pixelBytes, input_size)
          else
            Except.ok (webp.data, output_size)

/-! ### Batch conversion (src/image_processing.rs, convert_file_all) -/

/-- One parallel task of `convert_file_all`: the oracle environment of its
`convert_file` call, plus the outcome of the task's own
`path.metadata()` read (`none` models a failing read, whose `unwrap`
panics). -/
structure TaskEnv where
  conv : ConvertEnv
  metadataLen : Option Nat
deriving DecidableEq, Repr

/-- The body of the `map` closure in `convert_file_all`
(`src/image_processing.rs` lines 35-49): on a `convert_file` error the task
yields `(path.metadata().unwrap().len(), 0, 1)`, on success
`(path.metadata().unwrap().len(), converted_size, 1)`; `none` models the
panic of `unwrap` on a failed metadata read. -/
def taskResult (t : TaskEnv) (use_initial_if_smaller : Nat) :
    Option (Nat × Nat × Nat) :=
  match convert_file t.conv use_initial_if_smaller with
  | Except.error _ =>
    match t.metadataLen with
    | none => none
    | some len => some (len, 0, 1)
  | Except.ok r =>
    match t.metadataLen with
    | none => none
    | some len => some (len, r.2, 1)

/-- The reduction combiner of `convert_file_all`
(`src/image_processing.rs` lines 50-59). -/
def combine (a b : Nat × Nat × Nat) : Nat × Nat × Nat :=
  (a.1 + b.1, a.2.1 + b.2.1, a.2.2 + b.2.2)

/-- The parallel map of `convert_file_all` over the task list: every task
runs; a panic in any task (a `none` from `taskResult`) propagates and the
whole run panics (`none`). -/
def mapTasks (use_initial_if_smaller : Nat) : List TaskEnv →
    Option (List (Nat × Nat × Nat))
  | [] => some []
  | t :: rest =>
    match taskResult t use_initial_if_smaller,
        mapTasks use_initial_if_smaller rest with
    | some r, some rs => some (r :: rs)
    | _, _ => none

/-- `convert_file_all` from `src/image_processing.rs` lines 24-60: map each
task to its `(input_size, output_size, 1)` triple, then reduce with
`combine` from identity `(0, 0, 0)`. -/
def convert_file_all (tasks : List TaskEnv) (use_initial_if_smaller : Nat) :
    Option (Nat × Nat × Nat) :=
  match mapTasks use_initial_if_smaller tasks with
  | none => none
  | some results => some (results.foldl combine (0, 0, 0))

/-- The output size a task reports into the aggregate: `0` on a
`convert_file` error, the returned size on success. -/
def taskOutput (t : TaskEnv) (use_initial_if_smaller : Nat) : Nat :=
  match convert_file t.conv use_initial_if_smaller with
  | Except.error _ => 0
  | Except.ok r => r.2

/-- Componentwise sum of a list of aggregate triples. -/
def sumAgg (l : List (Nat × Nat × Nat)) : Nat × Nat × Nat :=
  ((l.map fun r => r.1).sum, (l.map fun r => r.2.1).sum,
    (l.map fun r => r.2.2).sum)

/-- A grouping of per-task results: the shape of a reduction tree, leaves
holding the results. Reducing it models reducing the list under an
arbitrary parenthesisation. -/
inductive RTree where
  | leaf (r : Nat × Nat × Nat)
  | node (l r : RTree)
deriving DecidableEq, Repr

/-- Reduce a grouping with `combine`. -/
def RTree.reduce : RTree → Nat × Nat × Nat
  | .leaf r => r
  | .node l r => combine l.reduce r.reduce

/-- The per-task results of a grouping, left to right. -/
def RTree.toList : RTree → List (Nat × Nat × Nat)
  | .leaf r => [r]
  | .node l r => l.toList ++ r.toList

/-! ### Bounded-depth directory flattening (src/file_utils.rs, flatten_dir) -/

/-- A node of a directory tree as `flatten_dir` observes it. `readErr` is a
directory entry whose read failed (`path.is_err()` in the `read_dir` loop);
`dir` lists the entries in the order `read_dir` yields them. A path is its
list of components; a node's path is the path it was reached under. -/
inductive FsTree where
  | file (name : String)
  | readErr
  | dir (name : String) (entries : List FsTree)

/-- The last path component of a node (unused for `readErr`, whose path is
never taken because the loop returns before `path.unwrap()`). -/
def FsTree.name : FsTree → String
  | .file n => n
  | .readErr => ""
  | .dir n _ => n

/-- Whether a directory entry is a failed read (`path.is_err()`). -/
def FsTree.isErr : FsTree → Bool
  | .readErr => true
  | _ => false

mutual

/-- `flatten_dir` from `src/file_utils.rs` lines 34-52, called on the node
`t` whose full path is `selfPath`, at depth `current` with bound `maxD`.
Returns the paths pushed onto `all_files`, in push order: a file pushes its
own path; a directory iterates its entries, and each iteration first checks
`path.is_err() || current + 1 > maxD` and returns at once when it holds.
A node that is neither file nor directory contributes nothing. -/
def flatten_dir (t : FsTree) (selfPath : List String)
    (current maxD : Nat) : List (List String) :=
  match t with
  | .file _ => [selfPath]
  | .readErr => []
  | .dir _ entries => flattenEntries entries selfPath current maxD

/-- The `for path in input_path.read_dir()` loop of `flatten_dir`, over the
remaining entries of the directory whose path is `selfPath` and whose depth
is `current`. -/
def flattenEntries (l : List FsTree) (selfPath : List String)
    (current maxD : Nat) : List (List String) :=
  match l with
  | [] => []
  | e :: rest =>
    if e.isErr = true ∨ current + 1 > maxD then []
    else
      flatten_dir e (selfPath ++ [e.name]) (current + 1) maxD ++
        flattenEntries rest selfPath current maxD

end

mutual

/-- Modelled from the spec: the regular files of the tree `t` (rooted at
path `selfPath`, at depth `current`) whose depth is at most `maxD`, in
depth-first order — the set the spec says `flatten` returns. -/
def specFilesUpToDepth (t : FsTree) (selfPath : List String)
    (current maxD : Nat) : List (List String) :=
  match t with
  | .file _ => if current ≤ maxD then [selfPath] else []
  | .readErr => []
  | .dir _ entries => specFilesList entries selfPath current maxD

/-- Modelled from the spec: the files of depth at most `maxD` among the
subtrees rooted at the entries of a directory of path `selfPath` and depth
`current`. -/
def specFilesList (l : List FsTree) (selfPath : List String)
    (current maxD : Nat) : List (List String) :=
  match l with
  | [] => []
  | e :: rest =>
    specFilesUpToDepth e (selfPath ++ [e.name]) (current + 1) maxD ++
      specFilesList rest selfPath current maxD

end

mutual

/-- Whether any entry read anywhere in the tree fails. -/
def FsTree.hasErr : FsTree → Bool
  | .file _ => false
  | .readErr => true
  | .dir _ entries => FsTree.listHasErr entries

/-- Whether any entry read in any of the given subtrees fails. -/
def FsTree.listHasErr : List FsTree → Bool
  | [] => false
  | e :: rest => e.hasErr || FsTree.listHasErr rest

end

/-! ## Theorems -/

/-- C8: `generate_config` sets the effective lossless flag to the requested
value exactly when quality is 100 and forces it to 0 for every other
quality; quality and method are passed through to the configuration
unchanged. -/
theorem generate_config_lossless_coupling (args : Cli) :
    (generate_config args).lossless =
      (if args.quality = 100 then (args.lossless : Int) else 0) ∧
    (generate_config args).quality = args.quality ∧
    (generate_config args).method = (args.method : Int) := by
  refine ⟨?_, rfl, rfl⟩
  by_cases h : args.quality = 100 <;> simp [generate_config, h]

/-- C1, counterexample to the claim as stated: with an accepted
configuration and the `WebPEncode` status equal to the OK code — the case
the claim calls success and says must yield `Ok` — `encode` returns
`Err(picture.error_code)`, not the buffer. -/
theorem encode_c1_status_eq_ok_not_success :
    (⟨true, VP8_STATUS_OK, [], WebPEncodingError.VP8_ENC_ERROR_BAD_DIMENSION⟩ :
        EncodeEnv).encodeStatus = VP8_STATUS_OK ∧
    encode ⟨true, VP8_STATUS_OK, [],
        WebPEncodingError.VP8_ENC_ERROR_BAD_DIMENSION⟩ =
      Except.error WebPEncodingError.VP8_ENC_ERROR_BAD_DIMENSION ∧
    (encode ⟨true, VP8_STATUS_OK, [],
        WebPEncodingError.VP8_ENC_ERROR_BAD_DIMENSION⟩).isOk = false := by
  exact ⟨rfl, rfl, rfl⟩

/-- C1, amended: with an accepted configuration, `encode` returns `Ok` with
the wrapped writer buffer exactly when the `WebPEncode` status is not equal
to the OK code (the nonzero status by which `WebPEncode` reports success),
and returns `Err(picture.error_code)` exactly when the status equals the OK
code. -/
theorem encode_ok_iff_status_ne_ok_code (env : EncodeEnv)
    (hv : env.validateConfig = true) :
    (env.encodeStatus ≠ VP8_STATUS_OK →
      encode env = Except.ok ⟨env.writerMem⟩) ∧
    (env.encodeStatus = VP8_STATUS_OK →
      encode env = Except.error env.pictureErrorCode) := by
  constructor <;> intro h <;> simp [encode, encodeTr, hv, h]

/-- C1, witness for the amended theorem at a concrete successful encode. -/
theorem encode_ok_iff_status_ne_ok_code_witness :
    (⟨true, 1, [5], WebPEncodingError.VP8_ENC_OK⟩ :
        EncodeEnv).validateConfig = true ∧
    encode ⟨true, 1, [5], WebPEncodingError.VP8_ENC_OK⟩ =
      Except.ok ⟨[5]⟩ :=
  ⟨rfl,
    (encode_ok_iff_status_ne_ok_code
      ⟨true, 1, [5], WebPEncodingError.VP8_ENC_OK⟩ rfl).1 (by decide)⟩

/-- C9: `encode` performs the configuration validation call before anything
else, and whenever validation rejects the configuration it returns the
`InvalidConfiguration` error having performed neither the `WebPEncode`
call nor the memory-writer buffer acquisition. -/
theorem encode_validates_config_first (env : EncodeEnv) :
    ((encodeTr env).2.head? = some EncodeEffect.validateCall) ∧
    (env.validateConfig = false →
      encode env =
        Except.error WebPEncodingError.VP8_ENC_ERROR_INVALID_CONFIGURATION ∧
      EncodeEffect.encodeCall ∉ (encodeTr env).2 ∧
      EncodeEffect.writerInit ∉ (encodeTr env).2) := by
  by_cases hv : env.validateConfig = false
  · refine ⟨by simp [encodeTr, hv], fun _ => ⟨?_, ?_, ?_⟩⟩ <;>
      simp [encode, encodeTr, hv]
  · refine ⟨?_, fun h => absurd h hv⟩
    by_cases hs : env.encodeStatus = VP8_STATUS_OK <;>
      simp [encodeTr, hv, hs]

/-- C9, witness at a concrete rejected configuration. -/
theorem encode_validates_config_first_witness :
    (⟨false, 1, [3], WebPEncodingError.VP8_ENC_OK⟩ :
        EncodeEnv).validateConfig = false ∧
    encode ⟨false, 1, [3], WebPEncodingError.VP8_ENC_OK⟩ =
      Except.error WebPEncodingError.VP8_ENC_ERROR_INVALID_CONFIGURATION ∧
    EncodeEffect.encodeCall ∉
      (encodeTr ⟨false, 1, [3], WebPEncodingError.VP8_ENC_OK⟩).2 :=
  ⟨rfl,
    ((encode_validates_config_first
      ⟨false, 1, [3], WebPEncodingError.VP8_ENC_OK⟩).2 rfl).1,
    ((encode_validates_config_first
      ⟨false, 1, [3], WebPEncodingError.VP8_ENC_OK⟩).2 rfl).2.1⟩

/-- C2: when `use_initial_if_smaller` is 1 and the input file's size is
strictly below the encoded buffer's length, `convert_file` writes the
decoded pixel bytes of the image (not the encoded buffer, not the original
compressed file) and reports the input file's size as the output size. -/
theorem convert_file_fallback_writes_pixels (env : ConvertEnv) (s : String)
    (img : Image) (webp : WebPMemory)
    (hstem : env.fileStem = some s) (hdec : env.decoded = some img)
    (henc : env.encodeResult = Except.ok webp)
    (hdir : env.outputExists = true ∨ env.createDirOk = true)
    (hsz : env.inputSize < webp.data.length) :
    convert_file env 1 = Except.ok (img.pixelBytes, env.inputSize) := by
  have hd : ¬(env.outputExists = false ∧ env.createDirOk = false) := by
    rcases hdir with h | h <;> simp [h]
  simp [convert_file, hstem, hdec, henc, hd, hsz]

/-- C2, witness: a 2-byte input whose encode result has 4 bytes; the pixel
bytes are written and the reported size is the input size 2. -/
theorem convert_file_fallback_writes_pixels_witness :
    (⟨some "a", some ⟨[1, 2, 3]⟩, Except.ok ⟨[9, 9, 9, 9]⟩, true, true, 2⟩ :
        ConvertEnv).inputSize < (⟨[9, 9, 9, 9]⟩ : WebPMemory).data.length ∧
    convert_file
        ⟨some "a", some ⟨[1, 2, 3]⟩, Except.ok ⟨[9, 9, 9, 9]⟩, true, true, 2⟩
        1 =
      Except.ok ([1, 2, 3], 2) :=
  ⟨by decide,
    convert_file_fallback_writes_pixels
      ⟨some "a", some ⟨[1, 2, 3]⟩, Except.ok ⟨[9, 9, 9, 9]⟩, true, true, 2⟩
      "a" ⟨[1, 2, 3]⟩ ⟨[9, 9, 9, 9]⟩ rfl rfl rfl (Or.inl rfl) (by decide)⟩

/-- C7: when `use_initial_if_smaller` is not 1, `convert_file` writes the
encoded buffer and reports its length as the output size, even when that
length exceeds the input file's size. -/
theorem convert_file_no_fallback_writes_encoded (env : ConvertEnv) (u : Nat)
    (s : String) (img : Image) (webp : WebPMemory) (hu : u ≠ 1)
    (hstem : env.fileStem = some s) (hdec : env.decoded = some img)
    (henc : env.encodeResult = Except.ok webp)
    (hdir : env.outputExists = true ∨ env.createDirOk = true) :
    convert_file env u = Except.ok (webp.data, webp.data.length) := by
  have hd : ¬(env.outputExists = false ∧ env.createDirOk = false) := by
    rcases hdir with h | h <;> simp [h]
  have hu' : (u == 1) = false := by simpa using hu
  simp [convert_file, hstem, hdec, henc, hd, hu']

/-- C7, witness: flag off, encoded length 4 greater than input size 2; the
encoded bytes are written and 4 is reported. -/
theorem convert_file_no_fallback_writes_encoded_witness :
    (0 : Nat) ≠ 1 ∧
    convert_file
        ⟨some "a", some ⟨[1, 2, 3]⟩, Except.ok ⟨[9, 9, 9, 9]⟩, true, true, 2⟩
        0 =
      Except.ok ([9, 9, 9, 9], 4) :=
  ⟨by decide,
    convert_file_no_fallback_writes_encoded
      ⟨some "a", some ⟨[1, 2, 3]⟩, Except.ok ⟨[9, 9, 9, 9]⟩, true, true, 2⟩
      0 "a" ⟨[1, 2, 3]⟩ ⟨[9, 9, 9, 9]⟩ (by decide) rfl rfl rfl (Or.inl rfl)⟩

/-- Helper: `combine` is associative. -/
theorem combine_assoc (a b c : Nat × Nat × Nat) :
    combine (combine a b) c = combine a (combine b c) := by
  simp [combine, Nat.add_assoc]

/-- Helper: `combine` is commutative. -/
theorem combine_comm (a b : Nat × Nat × Nat) : combine a b = combine b a := by
  simp [combine, Nat.add_comm]

/-- Helper: `(0, 0, 0)` is a left identity of `combine`. -/
theorem combine_zero_left (a : Nat × Nat × Nat) : combine (0, 0, 0) a = a := by
  obtain ⟨x, y, z⟩ := a
  simp [combine]

/-- Helper: `(0, 0, 0)` is a right identity of `combine`. -/
theorem combine_zero_right (a : Nat × Nat × Nat) : combine a (0, 0, 0) = a := by
  obtain ⟨x, y, z⟩ := a
  simp [combine]

/-- Helper: a left fold of `combine` factors its starting value out. -/
theorem foldl_combine_shift (l : List (Nat × Nat × Nat)) (a : Nat × Nat × Nat) :
    l.foldl combine a = combine a (l.foldl combine (0, 0, 0)) := by
  induction l generalizing a with
  | nil => simp only [List.foldl_nil]; exact (combine_zero_right a).symm
  | cons x l ih =>
    simp only [List.foldl_cons]
    rw [ih (combine a x), ih (combine (0, 0, 0) x), combine_zero_left,
      combine_assoc]

/-- Helper: `sumAgg` on a cons. -/
theorem sumAgg_cons (x : Nat × Nat × Nat) (l : List (Nat × Nat × Nat)) :
    sumAgg (x :: l) = combine x (sumAgg l) := by
  simp [sumAgg, combine]

/-- Helper: `sumAgg` on an append. -/
theorem sumAgg_append (l₁ l₂ : List (Nat × Nat × Nat)) :
    sumAgg (l₁ ++ l₂) = combine (sumAgg l₁) (sumAgg l₂) := by
  simp [sumAgg, combine]

/-- Helper: the sequential reduction of `convert_file_all` computes the
componentwise sum. -/
theorem foldl_combine_eq_sumAgg (l : List (Nat × Nat × Nat)) :
    l.foldl combine (0, 0, 0) = sumAgg l := by
  induction l with
  | nil => simp [sumAgg]
  | cons x l ih =>
    simp only [List.foldl_cons, combine_zero_left]
    rw [foldl_combine_shift, ih, ← sumAgg_cons]

/-- Helper: `sumAgg` is invariant under permutation. -/
theorem sumAgg_perm (l₁ l₂ : List (Nat × Nat × Nat)) (h : l₁.Perm l₂) :
    sumAgg l₁ = sumAgg l₂ := by
  simp [sumAgg, (h.map _).sum_eq]

/-- Helper: the reduction of a grouping equals the componentwise sum of its
leaves. -/
theorem rtree_reduce_eq_sumAgg (t : RTree) : t.reduce = sumAgg t.toList := by
  induction t with
  | leaf r =>
    obtain ⟨x, y, z⟩ := r
    simp [RTree.reduce, RTree.toList, sumAgg]
  | node l r ihl ihr =>
    simp [RTree.reduce, RTree.toList, sumAgg_append, ihl, ihr]

/-- C6: the aggregate combiner of `convert_file_all` is associative and
commutative with identity `(0, 0, 0)`, and reducing any grouping of a fixed
list of per-task results, in any order, yields the same triple as the
sequential left fold. -/
theorem combine_reduce_order_invariant :
    (∀ a b c, combine (combine a b) c = combine a (combine b c)) ∧
    (∀ a b, combine a b = combine b a) ∧
    (∀ a, combine (0, 0, 0) a = a ∧ combine a (0, 0, 0) = a) ∧
    (∀ (t : RTree) (l : List (Nat × Nat × Nat)), t.toList.Perm l →
      t.reduce = l.foldl combine (0, 0, 0)) :=
  ⟨combine_assoc, combine_comm,
    fun a => ⟨combine_zero_left a, combine_zero_right a⟩,
    fun t l h => by
      rw [rtree_reduce_eq_sumAgg, foldl_combine_eq_sumAgg, sumAgg_perm _ _ h]⟩

/-- C6, witness: a concrete grouping of three results reduced against a
reordered flat list. -/
theorem combine_reduce_order_invariant_witness :
    ((RTree.node (RTree.leaf (1, 2, 3))
        (RTree.node (RTree.leaf (4, 5, 6)) (RTree.leaf (7, 8, 9)))).toList).Perm
      [(4, 5, 6), (7, 8, 9), (1, 2, 3)] ∧
    (RTree.node (RTree.leaf (1, 2, 3))
        (RTree.node (RTree.leaf (4, 5, 6)) (RTree.leaf (7, 8, 9)))).reduce =
      [(4, 5, 6), (7, 8, 9), (1, 2, 3)].foldl combine (0, 0, 0) :=
  ⟨by decide,
    combine_reduce_order_invariant.2.2.2
      (RTree.node (RTree.leaf (1, 2, 3))
        (RTree.node (RTree.leaf (4, 5, 6)) (RTree.leaf (7, 8, 9))))
      [(4, 5, 6), (7, 8, 9), (1, 2, 3)] (by decide)⟩

/-- Helper: a task whose metadata read succeeds yields its metadata length,
its output (0 on a `convert_file` error), and a count of 1. -/
theorem taskResult_eq_of_metadata_some (t : TaskEnv) (u : Nat)
    (h : t.metadataLen ≠ none) :
    taskResult t u = some (t.metadataLen.getD 0, taskOutput t u, 1) := by
  obtain ⟨len, hlen⟩ := Option.ne_none_iff_exists'.mp h
  cases hcv : convert_file t.conv u <;>
    simp [taskResult, taskOutput, hcv, hlen]

/-- Helper: when every metadata read succeeds, the parallel map completes
with one triple per task. -/
theorem mapTasks_eq_of_metadata_some (tasks : List TaskEnv) (u : Nat)
    (hmeta : ∀ t ∈ tasks, t.metadataLen ≠ none) :
    mapTasks u tasks =
      some (tasks.map fun t => (t.metadataLen.getD 0, taskOutput t u, 1)) := by
  induction tasks with
  | nil => rfl
  | cons t rest ih =>
    have h1 := taskResult_eq_of_metadata_some t u (hmeta t (by simp))
    have h2 := ih fun x hx => hmeta x (by simp [hx])
    simp [mapTasks, h1, h2]

/-- Helper: the sum of ones over a list is its length. -/
theorem sum_map_ones {α : Type} (l : List α) :
    (l.map fun _ => (1 : Nat)).sum = l.length := by
  induction l with
  | nil => rfl
  | cons a l ih => simp [ih, Nat.add_comm]

/-- C3: when every metadata read succeeds, a run over N tasks always
completes with count N — a failing task (missing file stem, decode failure,
encode failure) does not abort sibling tasks and contributes exactly
`(input size, 0, 1)` — and the total output size is the sum of the
successful tasks' outputs only (`taskOutput` is 0 on failure). -/
theorem convert_file_all_failure_contribution (tasks : List TaskEnv) (u : Nat)
    (hmeta : ∀ t ∈ tasks, t.metadataLen ≠ none) :
    convert_file_all tasks u =
      some ((tasks.map fun t => t.metadataLen.getD 0).sum,
        (tasks.map fun t => taskOutput t u).sum, tasks.length) ∧
    ∀ t ∈ tasks, (convert_file t.conv u).isOk = false →
      taskResult t u = some (t.metadataLen.getD 0, 0, 1) := by
  constructor
  · simp only [convert_file_all, mapTasks_eq_of_metadata_some tasks u hmeta]
    rw [foldl_combine_eq_sumAgg]
    simp [sumAgg, List.map_map, Function.comp_def, sum_map_ones]
  · intro t ht hfail
    have h1 := taskResult_eq_of_metadata_some t u (hmeta t ht)
    have h0 : taskOutput t u = 0 := by
      cases hcv : convert_file t.conv u with
      | error e => simp [taskOutput, hcv]
      | ok r => rw [hcv] at hfail; simp [Except.isOk, Except.toBool] at hfail
    rw [h1, h0]

/-- C3, witness: two tasks, the first failing (no file stem), the second
succeeding; the aggregate counts both, the failure contributing
`(10, 0, 1)`. -/
theorem convert_file_all_failure_contribution_witness :
    (∀ t ∈ [(⟨⟨none, none,
          Except.error WebPEncodingError.VP8_ENC_ERROR_BAD_DIMENSION,
          true, true, 10⟩, some 10⟩ : TaskEnv),
        ⟨⟨some "a", some ⟨[1, 2]⟩, Except.ok ⟨[7, 7, 7]⟩, true, true, 5⟩,
          some 5⟩], t.metadataLen ≠ none) ∧
    convert_file_all
        [⟨⟨none, none,
            Except.error WebPEncodingError.VP8_ENC_ERROR_BAD_DIMENSION,
            true, true, 10⟩, some 10⟩,
          ⟨⟨some "a", some ⟨[1, 2]⟩, Except.ok ⟨[7, 7, 7]⟩, true, true, 5⟩,
            some 5⟩] 0 =
      some (15, 3, 2) ∧
    taskResult
        (⟨⟨none, none,
            Except.error WebPEncodingError.VP8_ENC_ERROR_BAD_DIMENSION,
            true, true, 10⟩, some 10⟩ : TaskEnv) 0 =
      some (10, 0, 1) := by
  refine ⟨by decide, ?_, ?_⟩
  · exact (convert_file_all_failure_contribution
      [⟨⟨none, none,
          Except.error WebPEncodingError.VP8_ENC_ERROR_BAD_DIMENSION,
          true, true, 10⟩, some 10⟩,
        ⟨⟨some "a", some ⟨[1, 2]⟩, Except.ok ⟨[7, 7, 7]⟩, true, true, 5⟩,
          some 5⟩] 0 (by decide)).1.trans (by decide)
  · exact (convert_file_all_failure_contribution
      [⟨⟨none, none,
          Except.error WebPEncodingError.VP8_ENC_ERROR_BAD_DIMENSION,
          true, true, 10⟩, some 10⟩,
        ⟨⟨some "a", some ⟨[1, 2]⟩, Except.ok ⟨[7, 7, 7]⟩, true, true, 5⟩,
          some 5⟩] 0 (by decide)).2 _ (by simp) (by decide)

/-- Helper: one panicking task makes the whole parallel map panic. -/
theorem mapTasks_eq_none_of_mem (tasks : List TaskEnv) (u : Nat) (t : TaskEnv)
    (ht : t ∈ tasks) (hnone : taskResult t u = none) :
    mapTasks u tasks = none := by
  induction tasks with
  | nil => cases ht
  | cons a rest ih =>
    rcases List.mem_cons.mp ht with rfl | hmem
    · simp [mapTasks, hnone]
    · cases h : taskResult a u <;> simp [mapTasks, h, ih hmem]

/-- C10: the per-file error recovery assumes the input file's metadata stays
readable — if a task's `convert_file` call fails and the unguarded metadata
read in the aggregation closure also fails, the task panics (the run yields
no aggregate) instead of being folded in as `(input size, 0, 1)`. -/
theorem convert_file_all_metadata_read_panics (tasks : List TaskEnv)
    (t : TaskEnv) (u : Nat) (ht : t ∈ tasks)
    (_hfail : (convert_file t.conv u).isOk = false)
    (hmeta : t.metadataLen = none) :
    convert_file_all tasks u = none := by
  have hnone : taskResult t u = none := by
    cases hcv : convert_file t.conv u <;> simp [taskResult, hcv, hmeta]
  rw [convert_file_all, mapTasks_eq_none_of_mem tasks u t ht hnone]

/-- C10, witness: a single failing task whose metadata read fails; the run
produces no aggregate. -/
theorem convert_file_all_metadata_read_panics_witness :
    (⟨⟨none, none,
        Except.error WebPEncodingError.VP8_ENC_ERROR_BAD_DIMENSION,
        true, true, 10⟩, none⟩ : TaskEnv) ∈
      [(⟨⟨none, none,
          Except.error WebPEncodingError.VP8_ENC_ERROR_BAD_DIMENSION,
          true, true, 10⟩, none⟩ : TaskEnv)] ∧
    convert_file_all
        [⟨⟨none, none,
            Except.error WebPEncodingError.VP8_ENC_ERROR_BAD_DIMENSION,
            true, true, 10⟩, none⟩] 0 = none :=
  ⟨by simp,
    convert_file_all_metadata_read_panics
      [⟨⟨none, none,
          Except.error WebPEncodingError.VP8_ENC_ERROR_BAD_DIMENSION,
          true, true, 10⟩, none⟩]
      ⟨⟨none, none,
          Except.error WebPEncodingError.VP8_ENC_ERROR_BAD_DIMENSION,
          true, true, 10⟩, none⟩ 0 (by simp) (by decide) rfl⟩

/-- Helper: the entry loop on a list containing a failed read processes
exactly the entries before the failure. -/
theorem flattenEntries_append_readErr (pre post : List FsTree)
    (p : List String) (c m : Nat) :
    flattenEntries (pre ++ FsTree.readErr :: post) p c m =
      flattenEntries pre p c m := by
  induction pre with
  | nil => simp [flattenEntries, FsTree.isErr]
  | cons e rest ih =>
    simp only [List.cons_append, flattenEntries, List.append_eq]
    rw [ih]

/-- C5: if reading one entry of a directory's listing fails, enumeration of
the remainder of that directory is aborted — the result is exactly what
flattening the directory restricted to the entries before the failing one
yields: entries already processed remain, no later entry is visited or
pushed. -/
theorem flatten_dir_aborts_dir_on_entry_err (name : String)
    (pre post : List FsTree) (p : List String) (c m : Nat) :
    flatten_dir (FsTree.dir name (pre ++ FsTree.readErr :: post)) p c m =
      flatten_dir (FsTree.dir name pre) p c m := by
  simp only [flatten_dir]
  exact flattenEntries_append_readErr pre post p c m

mutual

/-- Helper: a subtree rooted strictly beyond the depth bound holds no file
of depth within the bound. -/
theorem specFilesUpToDepth_nil_of_gt (t : FsTree) (p : List String)
    (c m : Nat) (h : m < c) : specFilesUpToDepth t p c m = [] := by
  cases t with
  | file n => simp [specFilesUpToDepth, Nat.not_le.mpr h]
  | readErr => rfl
  | dir n entries =>
    simp only [specFilesUpToDepth]
    exact specFilesList_nil_of_ge entries p c m (Nat.le_of_lt h)

/-- Helper: entries of a directory at depth at least the bound hold no file
of depth within the bound. -/
theorem specFilesList_nil_of_ge (l : List FsTree) (p : List String)
    (c m : Nat) (h : m ≤ c) : specFilesList l p c m = [] := by
  cases l with
  | nil => rfl
  | cons e rest =>
    simp only [specFilesList]
    rw [specFilesUpToDepth_nil_of_gt e (p ++ [e.name]) (c + 1) m
        (Nat.lt_succ_of_le h),
      specFilesList_nil_of_ge rest p c m h]
    rfl

end

/-- Helper: a subtree with no failed entry read has no `isErr` root. -/
theorem isErr_false_of_hasErr_false (e : FsTree) (h : e.hasErr = false) :
    e.isErr = false := by
  cases e with
  | file n => rfl
  | readErr => simp [FsTree.hasErr] at h
  | dir n entries => rfl

mutual

/-- Helper: on an error-free subtree entered within the depth bound,
`flatten_dir` collects exactly the files of depth within the bound. -/
theorem flatten_eq_spec_tree (t : FsTree) (p : List String) (c m : Nat)
    (herr : t.hasErr = false) (hc : c ≤ m) :
    flatten_dir t p c m = specFilesUpToDepth t p c m := by
  cases t with
  | file n => simp [flatten_dir, specFilesUpToDepth, hc]
  | readErr => simp [FsTree.hasErr] at herr
  | dir n entries =>
    simp only [flatten_dir, specFilesUpToDepth]
    exact flatten_eq_spec_list entries p c m
      (by simpa [FsTree.hasErr] using herr) hc

/-- Helper: the entry loop on error-free entries of a directory within the
depth bound collects exactly the files of depth within the bound. -/
theorem flatten_eq_spec_list (l : List FsTree) (p : List String) (c m : Nat)
    (herr : FsTree.listHasErr l = false) (hc : c ≤ m) :
    flattenEntries l p c m = specFilesList l p c m := by
  cases l with
  | nil => rfl
  | cons e rest =>
    have he : e.hasErr = false ∧ FsTree.listHasErr rest = false := by
      simpa [FsTree.listHasErr, Bool.or_eq_false_iff] using herr
    by_cases hd : c + 1 > m
    · have hm : m ≤ c := Nat.lt_succ_iff.mp hd
      simp only [flattenEntries, specFilesList, hd]
      rw [specFilesUpToDepth_nil_of_gt e (p ++ [e.name]) (c + 1) m
          (Nat.lt_succ_of_le hm),
        specFilesList_nil_of_ge rest p c m hm]
      simp [isErr_false_of_hasErr_false e he.1]
    · simp only [flattenEntries, specFilesList, hd,
        isErr_false_of_hasErr_false e he.1]
      rw [flatten_eq_spec_tree e (p ++ [e.name]) (c + 1) m he.1
          (Nat.not_lt.mp hd),
        flatten_eq_spec_list rest p c m he.2 hc]
      simp

end

/-- C4: on a directory tree in which no entry read fails, `flatten_dir`
with bound `M` (the root at depth 0) returns exactly the regular files at
depth at most `M` — in particular no file at depth `M + 1`. -/
theorem flatten_dir_files_upto_depth (t : FsTree) (p : List String) (M : Nat)
    (herr : t.hasErr = false) :
    flatten_dir t p 0 M = specFilesUpToDepth t p 0 M :=
  flatten_eq_spec_tree t p 0 M herr (Nat.zero_le M)

/-- C4, witness: a root holding a file at depth 1 and a directory holding a
file at depth 2, flattened with bound 1: only the depth-1 file appears. -/
theorem flatten_dir_files_upto_depth_witness :
    (FsTree.dir "a" [FsTree.file "x",
        FsTree.dir "b" [FsTree.file "y"]]).hasErr = false ∧
    flatten_dir
        (FsTree.dir "a" [FsTree.file "x", FsTree.dir "b" [FsTree.file "y"]])
        ["a"] 0 1 =
      specFilesUpToDepth
        (FsTree.dir "a" [FsTree.file "x", FsTree.dir "b" [FsTree.file "y"]])
        ["a"] 0 1 ∧
    flatten_dir
        (FsTree.dir "a" [FsTree.file "x", FsTree.dir "b" [FsTree.file "y"]])
        ["a"] 0 1 =
      [["a", "x"]] :=
  ⟨rfl,
    flatten_dir_files_upto_depth
      (FsTree.dir "a" [FsTree.file "x", FsTree.dir "b" [FsTree.file "y"]])
      ["a"] 1 rfl, rfl⟩

end Webp
